import Mathlib

/-!
Verification of the telemetry ingestion and cost-attribution pipeline of the
gemistat repository (a wrapper around the Gemini CLI that parses telemetry
JSON records, resolves model pricing, and aggregates daily/monthly usage).

The TypeScript sources are shallowly embedded: JavaScript numbers are
modelled as rationals, JS `Map`/`Record` values as insertion-ordered
association lists, the module-level pricing cache as explicitly threaded
state, and the ambient runtime (network fetch results, bundled offline
snapshot, local-timezone offset) as explicit parameters.  `JSON.parse` and
the ISO-8601 subset of `new Date(string)` are implemented directly.
-/

namespace Gemistat

/-- The opening-brace character, written via its code point. -/
def chLB : Char := Char.ofNat 123

/-- The closing-brace character, written via its code point. -/
def chRB : Char := Char.ofNat 125

/-- The double-quote character. -/
def chQ : Char := Char.ofNat 34

/-- The backslash character. -/
def chBS : Char := Char.ofNat 92

/-- JSON insignificant whitespace (also the characters trimmed by
JavaScript `String.prototype.trim` that occur in telemetry files). -/
def isWsChar (c : Char) : Bool :=
  c.toNat = 32 || c.toNat = 9 || c.toNat = 10 || c.toNat = 13

/-- Model of `String.prototype.trim`: strip leading and trailing whitespace.
Implemented on the character list so that it reduces in the kernel. -/
def jsTrim (s : String) : String :=
  String.mk (((s.data.dropWhile isWsChar).reverse.dropWhile isWsChar).reverse)

/-- Lexicographic code-point order on character lists; models the JavaScript
`<` comparison on (ASCII) strings. -/
def listLt : List Char → List Char → Bool
  | _, [] => false
  | [], _ :: _ => true
  | a :: as1, b :: bs1 =>
    if a.toNat < b.toNat then true
    else if b.toNat < a.toNat then false
    else listLt as1 bs1

/-- Lexicographic code-point `≤` on character lists. -/
def listLe : List Char → List Char → Bool
  | [], _ => true
  | _ :: _, [] => false
  | a :: as1, b :: bs1 =>
    if a.toNat < b.toNat then true
    else if b.toNat < a.toNat then false
    else listLe as1 bs1

/-- Whether `needle` occurs contiguously inside `hay`; models JavaScript
`hay.includes(needle)`. -/
def listIsInfix (needle : List Char) : List Char → Bool
  | [] => needle.isEmpty
  | c :: rest => needle.isPrefixOf (c :: rest) || listIsInfix needle rest

/-- JavaScript `s.includes(sub)`. -/
def jsIncludes (s sub : String) : Bool :=
  listIsInfix sub.data s.data

/-- JavaScript `s.toLowerCase()` (ASCII range). -/
def jsToLower (s : String) : String :=
  String.mk (s.data.map Char.toLower)

/-- One step of splitting: `cur` is the remaining input, `acc` the current
piece accumulated in reverse.  Fuel-structured so it reduces in the kernel;
the fuel is always at least the length of `cur`. -/
def splitFuel (sep : List Char) : Nat → List Char → List Char → List (List Char)
  | 0, cur, acc => [(acc.reverse ++ cur)]
  | _ + 1, [], acc => [acc.reverse]
  | fuel + 1, c :: rest, acc =>
    if sep.isPrefixOf (c :: rest) then
      acc.reverse :: splitFuel sep fuel ((c :: rest).drop sep.length) []
    else
      splitFuel sep fuel rest (c :: acc)

/-- JavaScript `s.split(sep)` for a non-empty separator: split on every
non-overlapping occurrence, scanning left to right. -/
def jsSplit (s sep : String) : List String :=
  (splitFuel sep.data (s.data.length + 1) s.data []).map String.mk

/-- JSON values as produced by `JSON.parse`.  Numbers are modelled as
rationals; object members keep their textual order (later duplicates of a
key shadow earlier ones on lookup, as in JavaScript). -/
inductive Json where
  | null : Json
  | bool (b : Bool) : Json
  | num (q : ℚ) : Json
  | str (s : String) : Json
  | arr (elems : List Json) : Json
  | obj (members : List (String × Json)) : Json

/-- JavaScript object property lookup: the last member with the given key
wins (duplicate keys in a JSON text overwrite earlier ones). -/
def jsGet (members : List (String × Json)) (key : String) : Option Json :=
  (members.reverse.find? (fun m => m.1 = key)).map (fun m => m.2)

/-- Decimal digit test. -/
def isDigitCh (c : Char) : Bool := 48 ≤ c.toNat && c.toNat ≤ 57

/-- Numeric value of a list of decimal digits. -/
def digitsToNat (ds : List Char) : Nat :=
  ds.foldl (fun n c => 10 * n + (c.toNat - 48)) 0

/-- Hexadecimal digit value, if any. -/
def hexVal (c : Char) : Option Nat :=
  let n := c.toNat
  if 48 ≤ n && n ≤ 57 then some (n - 48)
  else if 97 ≤ n && n ≤ 102 then some (n - 87)
  else if 65 ≤ n && n ≤ 70 then some (n - 55)
  else none

/-- Parse the body of a JSON string literal (the opening quote already
consumed).  Returns the decoded characters and the rest of the input. -/
def parseStrBody : List Char → List Char → Option (String × List Char)
  | [], _ => none
  | c :: rest, acc =>
    if c = chQ then some (String.mk acc.reverse, rest)
    else if c = chBS then
      match rest with
      | [] => none
      | e :: rest2 =>
        if e = chQ then parseStrBody rest2 (chQ :: acc)
        else if e = chBS then parseStrBody rest2 (chBS :: acc)
        else if e = '/' then parseStrBody rest2 ('/' :: acc)
        else if e = 'b' then parseStrBody rest2 (Char.ofNat 8 :: acc)
        else if e = 'f' then parseStrBody rest2 (Char.ofNat 12 :: acc)
        else if e = 'n' then parseStrBody rest2 ('\n' :: acc)
        else if e = 'r' then parseStrBody rest2 ('\r' :: acc)
        else if e = 't' then parseStrBody rest2 ('\t' :: acc)
        else if e = 'u' then
          match rest2 with
          | h1 :: h2 :: h3 :: h4 :: rest3 =>
            match hexVal h1, hexVal h2, hexVal h3, hexVal h4 with
            | some v1, some v2, some v3, some v4 =>
              parseStrBody rest3 (Char.ofNat (((v1 * 16 + v2) * 16 + v3) * 16 + v4) :: acc)
            | _, _, _, _ => none
          | _ => none
        else none
    else if c.toNat < 32 then none
    else parseStrBody rest (c :: acc)

/-- Strip JSON whitespace. -/
def skipWs (cs : List Char) : List Char := cs.dropWhile isWsChar

/-- Parse the digits of a JSON number after the optional minus sign:
integer part, optional fraction, optional exponent.  Strict JSON grammar
(no leading zeros, at least one digit in each part). -/
def parseNumTail (cs : List Char) : Option (ℚ × List Char) := do
  let intDigits := cs.takeWhile isDigitCh
  let rest := cs.drop intDigits.length
  if intDigits.isEmpty then none
  else if intDigits.length > 1 && intDigits.headD '0' = '0' then none
  else
    let intVal : ℚ := (digitsToNat intDigits : ℚ)
    let (frac, rest2) :=
      match rest with
      | '.' :: r =>
        let fd := r.takeWhile isDigitCh
        (some fd, r.drop fd.length)
      | _ => (none, rest)
    match frac with
    | some [] => none
    | _ =>
      let fracVal : ℚ :=
        match frac with
        | some fd => (digitsToNat fd : ℚ) / ((10 : ℚ) ^ fd.length)
        | none => 0
      let (expPart, rest3) :=
        match rest2 with
        | e :: r =>
          if e = 'e' || e = 'E' then
            match r with
            | '+' :: r2 => (some (true, r2.takeWhile isDigitCh), r2.drop (r2.takeWhile isDigitCh).length)
            | '-' :: r2 => (some (false, r2.takeWhile isDigitCh), r2.drop (r2.takeWhile isDigitCh).length)
            | _ => (some (true, r.takeWhile isDigitCh), r.drop (r.takeWhile isDigitCh).length)
          else (none, rest2)
        | [] => (none, rest2)
      match expPart with
      | some (_, []) => none
      | some (sign, ed) =>
        let e : ℤ := if sign then (digitsToNat ed : ℤ) else -(digitsToNat ed : ℤ)
        some ((intVal + fracVal) * (10 : ℚ) ^ e, rest3)
      | none => some (intVal + fracVal, rest3)

/-- Parse the members of a JSON object after the opening brace.  `pv` parses
one value (it is instantiated with the value parser at the strictly smaller
nesting depth); the fuel bounds the number of members.  `first` is true
before the first member, allowing an immediately closing brace. -/
def parseMembersF (pv : List Char → Option (Json × List Char)) :
    Nat → List Char → List (String × Json) → Bool → Option (Json × List Char)
  | _, [], _, _ => none
  | fuel, c :: rest, acc, first =>
    if c = chRB && first then some (Json.obj acc.reverse, rest)
    else
      match fuel with
      | 0 => none
      | fuel2 + 1 =>
        if c = chQ then do
          let (key, rest2) ← parseStrBody rest []
          match skipWs rest2 with
          | ':' :: rest3 => do
            let (v, rest4) ← pv rest3
            match skipWs rest4 with
            | ',' :: rest5 => parseMembersF pv fuel2 (skipWs rest5) ((key, v) :: acc) false
            | d :: rest5 =>
              if d = chRB then some (Json.obj ((key, v) :: acc).reverse, rest5) else none
            | [] => none
          | _ => none
        else none

/-- Parse the elements of a JSON array after the opening bracket. -/
def parseElemsF (pv : List Char → Option (Json × List Char)) :
    Nat → List Char → List Json → Bool → Option (Json × List Char)
  | _, [], _, _ => none
  | fuel, c :: rest, acc, first =>
    if c = ']' && first then some (Json.arr acc.reverse, rest)
    else
      match fuel with
      | 0 => none
      | fuel2 + 1 => do
        let (v, rest2) ← pv (c :: rest)
        match skipWs rest2 with
        | ',' :: rest3 => parseElemsF pv fuel2 (skipWs rest3) (v :: acc) false
        | ']' :: rest3 => some (Json.arr (v :: acc).reverse, rest3)
        | _ => none

/-- Recursive-descent JSON value parser.  The fuel bounds the nesting depth
and, within an object or array, the number of members; the top-level entry
point supplies the input length, which always suffices. -/
def parseVal : Nat → List Char → Option (Json × List Char)
  | 0, _ => none
  | fuel + 1, cs =>
    match skipWs cs with
    | [] => none
    | c :: rest =>
      if c = chQ then
        (parseStrBody rest []).map (fun p => (Json.str p.1, p.2))
      else if c = chLB then
        parseMembersF (parseVal fuel) (fuel + 1) (skipWs rest) [] true
      else if c = '[' then
        parseElemsF (parseVal fuel) (fuel + 1) (skipWs rest) [] true
      else if c = 't' then
        match rest with
        | 'r' :: 'u' :: 'e' :: rest2 => some (Json.bool true, rest2)
        | _ => none
      else if c = 'f' then
        match rest with
        | 'a' :: 'l' :: 's' :: 'e' :: rest2 => some (Json.bool false, rest2)
        | _ => none
      else if c = 'n' then
        match rest with
        | 'u' :: 'l' :: 'l' :: rest2 => some (Json.null, rest2)
        | _ => none
      else if c = '-' then
        (parseNumTail rest).map (fun p => (Json.num (-p.1), p.2))
      else if isDigitCh c then
        (parseNumTail (c :: rest)).map (fun p => (Json.num p.1, p.2))
      else none

/-- Model of `JSON.parse`: parse a complete JSON text; trailing whitespace only. -/
def jsonParse (s : String) : Option Json :=
  match parseVal (s.data.length + 1) s.data with
  | some (v, rest) => if skipWs rest = [] then some v else none
  | none => none

/-- A telemetry usage event (src/_schemas.ts `telemetryEventSchema` after
validation): `timestamp` is a string, `model` an optional string, and the
token counts optional non-negative integers. -/
structure TelemetryEvent where
  timestamp : String
  model : Option String
  inputTokens : Option Nat
  outputTokens : Option Nat
  cachedTokens : Option Nat
  thoughtsTokens : Option Nat
  toolTokens : Option Nat
deriving DecidableEq, Repr

/-- Zod `z.string()` on a raw attribute value: succeeds exactly on JSON
strings (`undefined`, i.e. an absent member, is not accepted here). -/
def validateStr : Option Json → Option String
  | some (Json.str s) => some s
  | _ => none

/-- Zod `z.string().optional()`: an absent member passes as `none`; a
present member must be a string (`null` fails). -/
def validateOptStr : Option Json → Option (Option String)
  | none => some none
  | some (Json.str s) => some (some s)
  | some _ => none

/-- Zod `z.number().int().min(0).optional()`: an absent member passes; a
present member must be a number with integral value `≥ 0`. -/
def validateOptNat : Option Json → Option (Option Nat)
  | none => some none
  | some (Json.num q) => if q.den = 1 && 0 ≤ q.num then some (some q.num.toNat) else none
  | some _ => none

/-- The member list of a JSON value when it is an object; any other value
behaves as an object with no own properties (every lookup yields
`undefined`), matching JavaScript property access in the parser. -/
def objMembers : Json → List (String × Json)
  | Json.obj kvs => kvs
  | _ => []

/-- Reach the `attributes` of one candidate record the way
src/telemetry-parser.ts does: strict JSON parse (a non-object top level
either skips or, for `null`, throws into the per-candidate catch), then the
non-null `attributes` member, viewed as an object. -/
def recordAttributes (jsonStr : String) : Option (List (String × Json)) := do
  let logRecord ← jsonParse jsonStr
  let lrMembers :=
    match logRecord with
    | Json.obj kvs => some kvs
    | Json.null => none           -- property access on null throws; caught and skipped
    | _ => some []                -- property access on primitives yields undefined
  let kvs ← lrMembers
  let attributes ← jsGet kvs "attributes"
  match attributes with
  | Json.null => none             -- `logRecord.attributes != null` fails
  | _ => some (objMembers attributes)

/-- Project validated attributes into a usage event: keep only records
whose `event.name` is the literal `gemini_cli.api_response`, build the raw
event (`event.timestamp ?? ''`) and validate it against
`telemetryEventSchema`; any failure yields `none` (the record is skipped).
-/
def projectApiResponseEvent (attrs : List (String × Json)) : Option TelemetryEvent :=
  match jsGet attrs "event.name" with
  | some (Json.str n) =>
    if n = "gemini_cli.api_response" then do
      let tsRaw :=
        match jsGet attrs "event.timestamp" with
        | none => Json.str ""       -- `?? ''` on undefined
        | some Json.null => Json.str ""  -- `?? ''` on null
        | some v => v
      let ts ← validateStr (some tsRaw)
      let model ← validateOptStr (jsGet attrs "model")
      let inTok ← validateOptNat (jsGet attrs "input_token_count")
      let outTok ← validateOptNat (jsGet attrs "output_token_count")
      let cachedTok ← validateOptNat (jsGet attrs "cached_content_token_count")
      let thoughtsTok ← validateOptNat (jsGet attrs "thoughts_token_count")
      let toolTok ← validateOptNat (jsGet attrs "tool_token_count")
      some ⟨ts, model, inTok, outTok, cachedTok, thoughtsTok, toolTok⟩
    else none
  | _ => none

/-- Process one candidate string of `parseTelemetryContent`
(src/telemetry-parser.ts, the body of the per-candidate `try`). -/
def processCandidate (jsonStr : String) : Option TelemetryEvent :=
  (recordAttributes jsonStr).bind projectApiResponseEvent

/-- The `event.name` attribute of a candidate record, reached the same way
`parseTelemetryContent` reaches it (used to state the event-name filter). -/
def eventNameOf (jsonStr : String) : Option Json :=
  (recordAttributes jsonStr).bind (fun attrs => jsGet attrs "event.name")

/-- Candidate recovery of `parseTelemetryContent` (src/telemetry-parser.ts
line `content.trim().split('\n\x7d\n\x7b')...`): split the trimmed content
on the four-character sequence newline, closing brace, newline, opening
brace; re-attach a trailing brace to every piece except the last (only when
a split happened) and a leading brace to every piece except the first; drop
pieces that are blank after trimming. -/
def splitCandidates (content : String) : List String :=
  let parts := jsSplit (jsTrim content) "\n\x7d\n\x7b"
  (parts.enum.map (fun p =>
    if p.1 = 0 then p.2 ++ (if parts.length > 1 then "\x7d" else "")
    else if p.1 = parts.length - 1 then "\x7b" ++ p.2
    else "\x7b" ++ p.2 ++ "\x7d")).filter (fun s => jsTrim s ≠ "")

/-- src/telemetry-parser.ts `parseTelemetryContent`: empty/whitespace input
yields no events; otherwise each recovered candidate is parsed and the
successfully validated API-response events are collected in order (a failed
candidate is skipped and the loop continues). -/
def parseTelemetryContent (content : String) : List TelemetryEvent :=
  if jsTrim content = "" then []
  else
    (splitCandidates content).foldl
      (fun events c =>
        match processCandidate c with
        | some e => events ++ [e]
        | none => events)
      []

/-- The candidate recovery exactly as the claim words it: split the trimmed
content on the three-character sequence closing brace, newline, opening
brace, with the same re-attachment discipline. -/
def splitCandidatesClaimed (content : String) : List String :=
  let parts := jsSplit (jsTrim content) "\x7d\n\x7b"
  (parts.enum.map (fun p =>
    if p.1 = 0 then p.2 ++ (if parts.length > 1 then "\x7d" else "")
    else if p.1 = parts.length - 1 then "\x7b" ++ p.2
    else "\x7b" ++ p.2 ++ "\x7d")).filter (fun s => jsTrim s ≠ "")

/-- The parser as it would behave under the claimed three-character
delimiter (used to exhibit the divergence from the implementation). -/
def parseTelemetryContentClaimed (content : String) : List TelemetryEvent :=
  if jsTrim content = "" then []
  else (splitCandidatesClaimed content).filterMap processCandidate

/-- Whether `y` is a leap year (proleptic Gregorian calendar). -/
def isLeapYear (y : Int) : Bool :=
  (y % 4 = 0 && y % 100 ≠ 0) || y % 400 = 0

/-- Number of days in month `m` of year `y`. -/
def daysInMonth (y : Int) (m : Nat) : Nat :=
  if m = 2 then (if isLeapYear y then 29 else 28)
  else if m = 4 || m = 6 || m = 9 || m = 11 then 30
  else 31

/-- Days since 1970-01-01 of the civil date `(y, m, d)` (Howard Hinnant's
`days_from_civil` algorithm over the proleptic Gregorian calendar). -/
def daysFromCivil (y : Int) (m d : Nat) : Int :=
  let y2 : Int := if m ≤ 2 then y - 1 else y
  let era : Int := Int.fdiv y2 400
  let yoe : Int := y2 - era * 400
  let mp : Int := if m > 2 then (m : Int) - 3 else (m : Int) + 9
  let doy : Int := Int.fdiv (153 * mp + 2) 5 + (d : Int) - 1
  let doe : Int := yoe * 365 + Int.fdiv yoe 4 - Int.fdiv yoe 100 + doy
  era * 146097 + doe - 719468

/-- Civil date `(y, m, d)` of the day `z` days after 1970-01-01 (Howard
Hinnant's `civil_from_days`). -/
def civilFromDays (z0 : Int) : Int × Nat × Nat :=
  let z : Int := z0 + 719468
  let era : Int := Int.fdiv z 146097
  let doe : Int := z - era * 146097
  let yoe : Int := Int.fdiv (doe - Int.fdiv doe 1460 + Int.fdiv doe 36524 - Int.fdiv doe 146096) 365
  let y : Int := yoe + era * 400
  let doy : Int := doe - (365 * yoe + Int.fdiv yoe 4 - Int.fdiv yoe 100)
  let mp : Int := Int.fdiv (5 * doy + 2) 153
  let d : Int := doy - Int.fdiv (153 * mp + 2) 5 + 1
  let m : Int := if mp < 10 then mp + 3 else mp - 9
  (if m ≤ 2 then y + 1 else y, m.toNat, d.toNat)

/-- Left-pad the decimal rendering of `n` with zeroes to width `w`. -/
def padNum (w : Nat) (n : Nat) : String :=
  let s := toString n
  String.mk (List.replicate (w - s.length) '0') ++ s

/-- Read exactly `n` decimal digits; return their value and the rest. -/
def readDigits (n : Nat) (cs : List Char) : Option (Nat × List Char) :=
  let ds := cs.take n
  if ds.length = n && ds.all isDigitCh then some (digitsToNat ds, cs.drop n) else none

/-- A parsed ISO-8601 date-time: days since epoch of the civil date, the
milliseconds of day, and the UTC offset in minutes (`none` for a date-time
without a designator, which JavaScript interprets in local time;
date-only strings get offset `some 0`, i.e. UTC). -/
structure IsoParts where
  days : Int
  msOfDay : Nat
  offsetMin : Option Int
deriving DecidableEq

/-- Parse the ECMAScript Date Time String Format
`YYYY-MM-DD[THH:mm[:ss[.sss]][Z|±HH:mm]]`, the format accepted portably by
`new Date(string)`; anything else yields an invalid date. -/
def parseIsoTimestamp (s : String) : Option IsoParts := do
  let (y, r1) ← readDigits 4 s.data
  match r1 with
  | '-' :: r2 => do
    let (mo, r3) ← readDigits 2 r2
    if mo < 1 || mo > 12 then none
    else match r3 with
    | '-' :: r4 => do
      let (d, r5) ← readDigits 2 r4
      if d < 1 || d > daysInMonth (y : Int) mo then none
      else
        let days := daysFromCivil (y : Int) mo d
        match r5 with
        | [] => some ⟨days, 0, some 0⟩
        | 'T' :: r6 => do
          let (h, r7) ← readDigits 2 r6
          if h > 23 then none
          else match r7 with
          | ':' :: r8 => do
            let (mi, r9) ← readDigits 2 r8
            if mi > 59 then none
            else do
              let (sec, ms, r10) ←
                match r9 with
                | ':' :: r9a => do
                  let (sec, r9b) ← readDigits 2 r9a
                  if sec > 59 then none
                  else match r9b with
                  | '.' :: r9c => do
                    let (ms, r9d) ← readDigits 3 r9c
                    some (sec, ms, r9d)
                  | _ => some (sec, 0, r9b)
                | _ => some (0, 0, r9)
              let msOfDay := ((h * 60 + mi) * 60 + sec) * 1000 + ms
              match r10 with
              | [] => some ⟨days, msOfDay, none⟩
              | ['Z'] => some ⟨days, msOfDay, some 0⟩
              | sign :: r11 =>
                if sign = '+' || sign = '-' then do
                  let (oh, r12) ← readDigits 2 r11
                  match r12 with
                  | ':' :: r13 => do
                    let (om, r14) ← readDigits 2 r13
                    if r14 = [] && oh ≤ 23 && om ≤ 59 then
                      let mag : Int := (oh * 60 + om : Nat)
                      some ⟨days, msOfDay, some (if sign = '+' then mag else -mag)⟩
                    else none
                  | _ => none
                else none
          | _ => none
        | _ => none
    | _ => none
  | _ => none

/-- Epoch milliseconds of a parsed timestamp, given the local-timezone
offset `tz` in minutes east of UTC (used for strings without a zone
designator). -/
def epochMsOf (tz : Int) (p : IsoParts) : Int :=
  p.days * 86400000 + (p.msOfDay : Int) - (p.offsetMin.getD tz) * 60000

/-- Modelled from the spec: src/_date-utils.ts `formatTimestampToLocalDate`
renders `new Date(timestamp)` through `Intl.DateTimeFormat(DATE_LOCALE,
{year, month: '2-digit', day: '2-digit'})`; the constant `DATE_LOCALE` and
the `Intl` formatter are not part of the available sources, and the spec
fixes their joint behaviour to "the local calendar date (YYYY-MM-DD)".
The local timezone is modelled as an explicit offset `tz` in minutes east
of UTC; an unparseable timestamp (an Invalid Date, on which the formatter
throws) yields `none`. -/
def formatTimestampToLocalDate (tz : Int) (timestamp : String) : Option String := do
  let p ← parseIsoTimestamp timestamp
  let localDays := Int.fdiv (epochMsOf tz p + tz * 60000) 86400000
  let (y, m, d) := civilFromDays localDays
  some (padNum 4 y.toNat ++ "-" ++ padNum 2 m ++ "-" ++ padNum 2 d)

/-- Normalisation used by the date filter: remove every hyphen, as the
regex replace in src/_date-utils.ts does. -/
def stripHyphens (s : String) : String :=
  String.mk (s.data.filter (fun c => c ≠ '-'))

/-- First ten characters: `substring(0, 10)`. -/
def take10 (s : String) : String := String.mk (s.data.take 10)

/-- src/_date-utils.ts `filterByDateRange`: with no bounds the list is
returned unchanged; otherwise the bounds are normalised by stripping
hyphens and an item is kept unless its normalised date (first ten
characters, hyphens stripped) is below `since` or above `until`. -/
def filterByDateRange (items : List α) (getDate : α → String)
    (since untl : Option String) : List α :=
  if since = none && untl = none then items
  else
    let normalizedSince := since.map stripHyphens
    let normalizedUntil := untl.map stripHyphens
    items.filter (fun item =>
      let dateStr := stripHyphens (take10 (getDate item))
      if normalizedSince.any (fun s => listLt dateStr.data s.data) then false
      else if normalizedUntil.any (fun u => listLt u.data dateStr.data) then false
      else true)

/-- src/pricing.ts `ModelPricing`: per-token cost coefficients. -/
structure ModelPricing where
  inputCostPerToken : ℚ
  outputCostPerToken : ℚ
  cachedCostPerToken : Option ℚ := none
  maxInputTokens : Option ℚ := none
  maxTokens : Option ℚ := none
deriving DecidableEq, Repr

/-- A pricing catalog: a JavaScript `Map` from model name to pricing,
modelled as an insertion-ordered association list with unique keys looked
up first-match. -/
abbrev Catalog := List (String × ModelPricing)

/-- JavaScript `map.get(k)` (first match; keys are unique by construction).
-/
def mapGet (m : Catalog) (k : String) : Option ModelPricing :=
  (m.find? (fun p => p.1 = k)).map (fun p => p.2)

/-- JavaScript `map.has(k)`. -/
def mapHas (m : Catalog) (k : String) : Bool :=
  m.any (fun p => p.1 = k)

/-- JavaScript `map.set(k, v)`: update in place when the key exists
(keeping its position), otherwise append. -/
def mapSet (m : Catalog) (k : String) (v : ModelPricing) : Catalog :=
  match m with
  | [] => [(k, v)]
  | (k2, v2) :: rest => if k2 = k then (k2, v) :: rest else (k2, v2) :: mapSet rest k v

/-- src/pricing.ts `EXPERIMENTAL_MODELS`: zero-cost fallback pricing for
experimental Gemini models, in the object's textual key order. -/
def EXPERIMENTAL_MODELS : Catalog :=
  [ ("gemini-2.0-flash-exp", { inputCostPerToken := 0, outputCostPerToken := 0 }),
    ("gemini-2.0-flash-thinking-exp", { inputCostPerToken := 0, outputCostPerToken := 0 }),
    ("gemini-2.0-flash-thinking-exp-1219", { inputCostPerToken := 0, outputCostPerToken := 0 }),
    ("gemini-exp-1206", { inputCostPerToken := 0, outputCostPerToken := 0 }),
    ("gemini-exp-1121", { inputCostPerToken := 0, outputCostPerToken := 0 }),
    ("learnlm-1.5-pro-experimental", { inputCostPerToken := 0, outputCostPerToken := 0 }) ]

/-- src/_consts.ts `CACHE_TOKEN_COST_MULTIPLIER`: cached tokens cost 25% of
the input-token cost when no specific cached price exists. -/
def CACHE_TOKEN_COST_MULTIPLIER : ℚ := 1 / 4

/-- One entry of the remote LiteLLM pricing document, as far as
`fetchPricingData` inspects it: each field is `some` exactly when the JSON
member is present with a numeric value. -/
structure LiteLLMEntry where
  input_cost_per_token : Option ℚ := none
  output_cost_per_token : Option ℚ := none
  cache_read_input_token_cost : Option ℚ := none
  max_input_tokens : Option ℚ := none
  max_tokens : Option ℚ := none
deriving DecidableEq

/-- The ambient world of the pricing fetcher: the outcome of the network
fetch of the LiteLLM document (`none` = network error or non-ok status, or
a non-object entry is `none`) and the outcome of the build-time offline
snapshot `prefetchGeminiPricing` (`none` = it throws). -/
structure PricingWorld where
  remote : Option (List (String × Option LiteLLMEntry))
  prefetch : Option (List (String × ModelPricing))

/-- Ingestion loop of the online branch of `fetchPricingData`: keep entries
that carry at least one numeric cost, defaulting the other cost to 0. -/
def ingestLiteLLM (data : List (String × Option LiteLLMEntry)) : Catalog :=
  data.foldl
    (fun pricing p =>
      match p.2 with
      | none => pricing
      | some e =>
        if e.input_cost_per_token.isSome || e.output_cost_per_token.isSome then
          mapSet pricing p.1
            { inputCostPerToken := e.input_cost_per_token.getD 0,
              outputCostPerToken := e.output_cost_per_token.getD 0,
              cachedCostPerToken := e.cache_read_input_token_cost,
              maxInputTokens := e.max_input_tokens,
              maxTokens := e.max_tokens }
        else pricing)
    []

/-- Add the experimental models to a catalog, keeping existing entries. -/
def addExperimentalModels (pricing : Catalog) : Catalog :=
  EXPERIMENTAL_MODELS.foldl
    (fun acc p => if mapHas acc p.1 then acc else mapSet acc p.1 p.2)
    pricing

/-- Build a `Map` from record entries (`new Map(Object.entries(...))`). -/
def catalogOfEntries (entries : List (String × ModelPricing)) : Catalog :=
  entries.foldl (fun acc p => mapSet acc p.1 p.2) []

/-- src/pricing.ts `fetchPricingData`: returns the module-level
`pricingCache` when already populated; otherwise builds the catalog from
the offline snapshot (offline mode), the remote document, or the fallbacks,
and populates the cache.  The returned pair is (result, new cache). -/
def fetchPricingData (w : PricingWorld) (offline : Bool) (cache : Option Catalog) :
    Catalog × Option Catalog :=
  match cache with
  | some c => (c, some c)
  | none =>
    let pricing :=
      if offline then
        match w.prefetch with
        | some entries => addExperimentalModels (catalogOfEntries entries)
        | none => catalogOfEntries EXPERIMENTAL_MODELS
      else
        match w.remote with
        | some data => addExperimentalModels (ingestLiteLLM data)
        | none =>
          match w.prefetch with
          | some entries => addExperimentalModels (catalogOfEntries entries)
          | none => catalogOfEntries EXPERIMENTAL_MODELS
    (pricing, some pricing)

/-- JavaScript record lookup `EXPERIMENTAL_MODELS[modelName]`. -/
def recGet (entries : Catalog) (k : String) : Option ModelPricing :=
  (entries.find? (fun p => p.1 = k)).map (fun p => p.2)

/-- Resolution body of src/pricing.ts `getModelPricing`, after the catalog
has been obtained: direct match; provider-prefixed variants in order;
exact experimental match; catalog scan over gemini-containing keys with
substring match either way (first in iteration order); experimental scan
with substring match either way.  The two scan loops are the named
functions below, shared with the claim-side description since the claim
words them identically. -/
def geminiSubstringScan (pricing : Catalog) (modelName : String) : Option ModelPricing :=
  let lowerModel := jsToLower modelName
  pricing.findSome? (fun kv =>
    let lowerKey := jsToLower kv.1
    if jsIncludes lowerKey "gemini" &&
        (jsIncludes lowerModel lowerKey || jsIncludes lowerKey lowerModel)
    then some kv.2 else none)

/-- The last-resort loop of `getModelPricing`: the first experimental entry
whose key contains or is contained in the model name. -/
def experimentalSubstringScan (modelName : String) : Option ModelPricing :=
  EXPERIMENTAL_MODELS.findSome? (fun kv =>
    if jsIncludes modelName kv.1 || jsIncludes kv.1 modelName
    then some kv.2 else none)

def resolveModelPricing (pricing : Catalog) (modelName : String) : Option ModelPricing :=
  match mapGet pricing modelName with
  | some p => some p
  | none =>
    let variations := [modelName, "google/" ++ modelName, "vertex_ai/" ++ modelName,
      "gemini/" ++ modelName]
    match variations.findSome? (fun v => mapGet pricing v) with
    | some p => some p
    | none =>
      match recGet EXPERIMENTAL_MODELS modelName with
      | some p => some p
      | none =>
        match geminiSubstringScan pricing modelName with
        | some p => some p
        | none => experimentalSubstringScan modelName

/-- src/pricing.ts `getModelPricing`: fetch (or read the cached) catalog,
then resolve.  Returns (resolution result, new cache). -/
def getModelPricing (w : PricingWorld) (offline : Bool) (cache : Option Catalog)
    (modelName : String) : Option ModelPricing × Option Catalog :=
  let fp := fetchPricingData w offline cache
  (resolveModelPricing fp.1 modelName, fp.2)

/-- src/pricing.ts `CostCalculation`. -/
structure CostCalculation where
  inputCost : ℚ
  outputCost : ℚ
  cachedCost : ℚ
  thoughtsCost : ℚ
  toolCost : ℚ
  totalCost : ℚ
deriving DecidableEq, Repr

/-- src/pricing.ts `calculateCost`: `null` when the model resolves to no
pricing; otherwise the five per-kind costs (cached tokens fall back to the
input cost times `CACHE_TOKEN_COST_MULTIPLIER` when the record carries no
cached price; thoughts and tool tokens are charged as output) and their
sum.  Returns (result, new cache). -/
def calculateCost (w : PricingWorld) (offline : Bool) (cache : Option Catalog)
    (modelName : String) (inputTokens outputTokens cachedTokens thoughtsTokens toolTokens : ℚ) :
    Option CostCalculation × Option Catalog :=
  let gp := getModelPricing w offline cache modelName
  match gp.1 with
  | none => (none, gp.2)
  | some pricing =>
    let inputCost := inputTokens * pricing.inputCostPerToken
    let outputCost := outputTokens * pricing.outputCostPerToken
    let cachedCost := cachedTokens *
      (pricing.cachedCostPerToken.getD (pricing.inputCostPerToken * CACHE_TOKEN_COST_MULTIPLIER))
    let thoughtsCost := thoughtsTokens * pricing.outputCostPerToken
    let toolCost := toolTokens * pricing.outputCostPerToken
    (some { inputCost, outputCost, cachedCost, thoughtsCost, toolCost,
            totalCost := inputCost + outputCost + cachedCost + thoughtsCost + toolCost }, gp.2)

/-- Insert into a sorted list according to a boolean comparator. -/
def orderedInsertBy (le : α → α → Bool) (x : α) : List α → List α
  | [] => [x]
  | y :: ys => if le x y then x :: y :: ys else y :: orderedInsertBy le x ys

/-- Stable comparison sort (models `Array.prototype.sort` with a
comparator; only the fact that the result is a permutation of the input is
used in the proofs). -/
def insertionSortBy (le : α → α → Bool) : List α → List α
  | [] => []
  | x :: xs => orderedInsertBy le x (insertionSortBy le xs)

/-- One row of the usage data extracted by
src/data-loader.ts `extractUsageFromTelemetry`. -/
structure UsageRow where
  model : String
  date : String
  inputTokens : Nat
  outputTokens : Nat
  cacheCreationTokens : Nat
  cacheReadTokens : Nat
  cost : ℚ
deriving DecidableEq, Repr

/-- The TypeScript guard keeping an event: a present, non-empty model and a
non-empty timestamp. -/
def keepEvent (e : TelemetryEvent) : Bool :=
  (match e.model with | some m => m ≠ "" | none => false) && e.timestamp ≠ ""

/-- src/data-loader.ts `extractUsageFromTelemetry` (the revision using
`formatTimestampToLocalDate`): for each event with a non-empty model and
timestamp, emit a row dated with the local calendar date of the timestamp,
costed through `calculateCost` (a failed resolution degrades to cost 0);
other events are skipped.  The module-level pricing cache is threaded
explicitly, the ambient world `w` and local-timezone offset `tz` are
parameters, and the whole run aborts with `none` when a kept event has an
unparseable timestamp (the date formatter throws on an Invalid Date). -/
def extractUsageFromTelemetry (w : PricingWorld) (offline : Bool) (tz : Int) :
    List TelemetryEvent → Option Catalog → Option (List UsageRow × Option Catalog)
  | [], cache => some ([], cache)
  | e :: rest, cache =>
    if keepEvent e then
      match formatTimestampToLocalDate tz e.timestamp with
      | none => none
      | some date =>
        let model := e.model.getD ""
        let inputTokens := e.inputTokens.getD 0
        let outputTokens := e.outputTokens.getD 0
        let cacheCreationTokens := 0
        let cacheReadTokens := e.cachedTokens.getD 0
        let cc := calculateCost w offline cache model (inputTokens : ℚ) (outputTokens : ℚ)
          (cacheReadTokens : ℚ) ((e.thoughtsTokens.getD 0 : Nat) : ℚ)
          ((e.toolTokens.getD 0 : Nat) : ℚ)
        let cost := (cc.1.map (fun r => r.totalCost)).getD 0
        (extractUsageFromTelemetry w offline tz rest cc.2).map
          (fun p => ({ model, date, inputTokens, outputTokens, cacheCreationTokens,
                       cacheReadTokens, cost } :: p.1, p.2))
    else extractUsageFromTelemetry w offline tz rest cache

/-- Accumulator of one date (or month) group in the daily/monthly maps of
src/data-loader.ts. -/
structure GroupAcc where
  inputTokens : Nat
  outputTokens : Nat
  cacheCreationTokens : Nat
  cacheReadTokens : Nat
  totalCost : ℚ
  models : List String
deriving DecidableEq

/-- The zero group accumulator (fresh map entry). -/
def emptyGroup : GroupAcc := ⟨0, 0, 0, 0, 0, []⟩

/-- JavaScript `Set.prototype.add` on an insertion-ordered set. -/
def setAdd (models : List String) (m : String) : List String :=
  if models.contains m then models else models ++ [m]

/-- Fold one usage row into a group accumulator (the `existing.x += data.x`
block of the grouping loops). -/
def addRowToGroup (g : GroupAcc) (r : UsageRow) : GroupAcc :=
  { inputTokens := g.inputTokens + r.inputTokens,
    outputTokens := g.outputTokens + r.outputTokens,
    cacheCreationTokens := g.cacheCreationTokens + r.cacheCreationTokens,
    cacheReadTokens := g.cacheReadTokens + r.cacheReadTokens,
    totalCost := g.totalCost + r.cost,
    models := setAdd g.models r.model }

/-- Update the grouping map at key `k` with row `r`: the JavaScript
`map.get(k) ?? empty`, mutate, `map.set(k, ...)` sequence (an existing key
keeps its position, a new key is appended). -/
def updateGroups (groups : List (String × GroupAcc)) (k : String) (r : UsageRow) :
    List (String × GroupAcc) :=
  match groups with
  | [] => [(k, addRowToGroup emptyGroup r)]
  | (k2, g) :: rest =>
    if k2 = k then (k2, addRowToGroup g r) :: rest
    else (k2, g) :: updateGroups rest k r

/-- Group usage rows by a key function, in insertion order. -/
def groupRowsBy (key : UsageRow → String) (rows : List UsageRow) :
    List (String × GroupAcc) :=
  rows.foldl (fun gs r => updateGroups gs (key r) r) []

/-- One aggregated daily or monthly bucket (src/_schemas.ts `DailyUsage` /
`MonthlyUsage`; the key is the date or the month). -/
structure UsageBucket where
  key : String
  inputTokens : Nat
  outputTokens : Nat
  cacheCreationTokens : Nat
  cacheReadTokens : Nat
  totalCost : ℚ
  modelsUsed : List String
deriving DecidableEq, Repr

/-- Convert a finished map entry into a bucket. -/
def toBucket (p : String × GroupAcc) : UsageBucket :=
  ⟨p.1, p.2.inputTokens, p.2.outputTokens, p.2.cacheCreationTokens, p.2.cacheReadTokens,
    p.2.totalCost, p.2.models⟩

/-- Aggregation core of src/data-loader.ts `loadDailyUsageData`: group the
extracted rows by date, convert to an array and sort ascending by date
(`localeCompare`, which on these ASCII keys is code-point order). -/
def loadDailyUsageData (rows : List UsageRow) : List UsageBucket :=
  insertionSortBy (fun a b => listLe a.key.data b.key.data)
    ((groupRowsBy (fun r => r.date) rows).map toBucket)

/-- First seven characters of a date string (`substring(0, 7)`). -/
def take7 (s : String) : String := String.mk (s.data.take 7)

/-- Aggregation core of src/data-loader.ts `loadMonthlyUsageData`: group by
the month prefix of the date and sort ascending by month. -/
def loadMonthlyUsageData (rows : List UsageRow) : List UsageBucket :=
  insertionSortBy (fun a b => listLe a.key.data b.key.data)
    ((groupRowsBy (fun r => take7 r.date) rows).map toBucket)

/-- src/_schemas.ts `Totals`. -/
structure Totals where
  inputTokens : Nat
  outputTokens : Nat
  cacheCreationTokens : Nat
  cacheReadTokens : Nat
  totalCost : ℚ
deriving DecidableEq, Repr

/-- The reduce callback of src/data-loader.ts `calculateTotals`. -/
def addBucketToTotals (totals : Totals) (item : UsageBucket) : Totals :=
  { inputTokens := totals.inputTokens + item.inputTokens,
    outputTokens := totals.outputTokens + item.outputTokens,
    cacheCreationTokens := totals.cacheCreationTokens + item.cacheCreationTokens,
    cacheReadTokens := totals.cacheReadTokens + item.cacheReadTokens,
    totalCost := totals.totalCost + item.totalCost }

/-- src/data-loader.ts `calculateTotals`: field-wise sum over daily or
monthly buckets, starting from the all-zero totals. -/
def calculateTotals (data : List UsageBucket) : Totals :=
  data.foldl addBucketToTotals ⟨0, 0, 0, 0, 0⟩

/-- The five summed fields of a totals value, as one element of the product
monoid (proof infrastructure for the grouping algebra). -/
def totalsMeasure (t : Totals) : Nat × Nat × Nat × Nat × ℚ :=
  (t.inputTokens, t.outputTokens, t.cacheCreationTokens, t.cacheReadTokens, t.totalCost)

/-- The five summed fields of a bucket. -/
def bucketMeasure (b : UsageBucket) : Nat × Nat × Nat × Nat × ℚ :=
  (b.inputTokens, b.outputTokens, b.cacheCreationTokens, b.cacheReadTokens, b.totalCost)

/-- The five summed fields of a grouping-map entry. -/
def groupMeasure (p : String × GroupAcc) : Nat × Nat × Nat × Nat × ℚ :=
  (p.2.inputTokens, p.2.outputTokens, p.2.cacheCreationTokens, p.2.cacheReadTokens, p.2.totalCost)

/-- The five summed fields of one extracted usage row. -/
def rowMeasure (r : UsageRow) : Nat × Nat × Nat × Nat × ℚ :=
  (r.inputTokens, r.outputTokens, r.cacheCreationTokens, r.cacheReadTokens, r.cost)

/-- Resolution strategy exactly as the claim words it: exact catalog key,
then the `google/`, `vertex_ai/`, `gemini/` prefixed variants in that
order, then the exact experimental key, then the first catalog key (in
iteration order) whose lowercase form contains "gemini" and contains or is
contained in the lowercased input, then the first experimental key that
contains or is contained in the input. -/
def getModelPricingSpec (pricing : Catalog) (modelName : String) : Option ModelPricing :=
  mapGet pricing modelName <|>
  (["google/" ++ modelName, "vertex_ai/" ++ modelName, "gemini/" ++ modelName].findSome?
    (fun v => mapGet pricing v)) <|>
  recGet EXPERIMENTAL_MODELS modelName <|>
  geminiSubstringScan pricing modelName <|>
  experimentalSubstringScan modelName

/-- Candidate recovery as the amended claim words it: split the trimmed
input on the literal four-character sequence newline, closing brace,
newline, opening brace; re-attach a trailing brace to every piece except
the last (when a split happened) and a leading brace to every piece except
the first; keep the non-blank pieces. -/
def amendedCandidateRecovery (content : String) : List String :=
  let parts := jsSplit (jsTrim content) "\n\x7d\n\x7b"
  (parts.enum.map (fun p =>
    (if p.1 ≠ 0 then "\x7b" else "") ++ p.2 ++
    (if p.1 ≠ parts.length - 1 then "\x7d" else ""))).filter
    (fun s => jsTrim s ≠ "")

/-- A pretty-printed API-response telemetry record (the shape emitted by
the wrapped CLI and used in the repository's own tests). -/
def record1 : String :=
  "\x7b\n  \"attributes\": \x7b\n    \"session.id\": \"test-session-1\",\n    \"event.name\": \"gemini_cli.api_response\",\n    \"event.timestamp\": \"2025-08-24T15:01:03.694Z\",\n    \"model\": \"gemini-2.5-pro\",\n    \"input_token_count\": 100,\n    \"output_token_count\": 20,\n    \"cached_content_token_count\": 5,\n    \"thoughts_token_count\": 10,\n    \"tool_token_count\": 0\n  \x7d\n\x7d"

/-- A second pretty-printed API-response record. -/
def record2 : String :=
  "\x7b\n  \"attributes\": \x7b\n    \"session.id\": \"test-session-2\",\n    \"event.name\": \"gemini_cli.api_response\",\n    \"event.timestamp\": \"2025-08-24T15:02:03.694Z\",\n    \"model\": \"gemini-2.5-flash\",\n    \"input_token_count\": 200,\n    \"output_token_count\": 40,\n    \"cached_content_token_count\": 10,\n    \"thoughts_token_count\": 5,\n    \"tool_token_count\": 2\n  \x7d\n\x7d"

/-- A structurally delimited but invalid record (the bare word after the
colon is not JSON), as in the repository's fault-isolation test. -/
def recordInvalid : String :=
  "\x7b\n  \"attributes\": \x7b\n    \"invalid\": json\n  \x7d\n\x7d"

/-- A record with token-count-shaped attributes but a non-API-response
event name. -/
def recordTokenUsage : String :=
  "\x7b\n  \"attributes\": \x7b\n    \"event.name\": \"gemini_cli.token.usage\",\n    \"event.timestamp\": \"2025-08-24T15:01:03.694Z\",\n    \"model\": \"gemini-2.5-pro\",\n    \"input_token_count\": 100,\n    \"output_token_count\": 20\n  \x7d\n\x7d"

/-- The usage event carried by `record1`. -/
def event1 : TelemetryEvent :=
  ⟨"2025-08-24T15:01:03.694Z", some "gemini-2.5-pro", some 100, some 20, some 5, some 10, some 0⟩

/-- The usage event carried by `record2`. -/
def event2 : TelemetryEvent :=
  ⟨"2025-08-24T15:02:03.694Z", some "gemini-2.5-flash", some 200, some 40, some 10, some 5, some 2⟩

/-- A compact (single-line) API-response record; two of these joined by a
newline contain the three-character sequence brace–newline–brace but not
the four-character sequence the implementation splits on. -/
def compactRecordA : String :=
  "\x7b\"attributes\":\x7b\"event.name\":\"gemini_cli.api_response\",\"event.timestamp\":\"2025-01-01T00:00:00.000Z\",\"model\":\"gemini-2.5-pro\",\"input_token_count\":1,\"output_token_count\":2\x7d\x7d"

/-- A second compact API-response record. -/
def compactRecordB : String :=
  "\x7b\"attributes\":\x7b\"event.name\":\"gemini_cli.api_response\",\"event.timestamp\":\"2025-01-02T00:00:00.000Z\",\"model\":\"gemini-2.5-pro\",\"input_token_count\":3,\"output_token_count\":4\x7d\x7d"

/-- A pricing world in which both the network fetch and the offline
snapshot fail (irrelevant whenever the cache is already populated). -/
def pricingWorld0 : PricingWorld := ⟨none, none⟩

/-- A one-entry catalog used by the witnesses. -/
def pricingRecord1 : ModelPricing :=
  { inputCostPerToken := 2, outputCostPerToken := 3, cachedCostPerToken := some 5 }

/-- A concrete catalog containing an exactly matching key. -/
def catalog1 : Catalog := [("gemini-2.5-pro", pricingRecord1)]

/-- A pricing record for the bare catalog key `gemini`. -/
def geminiRecord : ModelPricing := { inputCostPerToken := 7, outputCostPerToken := 11 }

/-- A telemetry event whose model resolves to no pricing record. -/
def eventUnknownModel : TelemetryEvent :=
  ⟨"2025-08-24T15:01:03.694Z", some "totally-unknown-model", some 100, some 100, none, none, none⟩

/-!
Theorems.  The rational operations of Batteries are restored to their
definitional behaviour so that the embedded pipeline evaluates on concrete
inputs.
-/

attribute [local semireducible] Rat.add Rat.mul Rat.inv Rat.sub Rat.ofScientific

set_option maxRecDepth 1000000

/-- The event-collecting loop of `parseTelemetryContent` is the
`filterMap` of the per-candidate processing: a failing candidate drops only
itself and the loop continues. -/
theorem foldl_push_eq_filterMap (f : String → Option TelemetryEvent) (l : List String)
    (acc : List TelemetryEvent) :
    l.foldl (fun events c => match f c with | some e => events ++ [e] | none => events) acc
      = acc ++ l.filterMap f := by
  induction l generalizing acc with
  | nil => simp
  | cons c rest ih =>
    simp only [List.foldl_cons, List.filterMap_cons]
    cases f c <;> simp [ih]

/-- The re-attachment arithmetic of the implementation and of the amended
claim agree on every index. -/
theorem reattach_pointwise (L : Nat) (p : Nat × String) :
    (if p.1 = 0 then p.2 ++ (if L > 1 then "\x7d" else "")
     else if p.1 = L - 1 then "\x7b" ++ p.2
     else "\x7b" ++ p.2 ++ "\x7d")
    = (if p.1 ≠ 0 then "\x7b" else "") ++ p.2 ++ (if p.1 ≠ L - 1 then "\x7d" else "") := by
  rcases p with ⟨n, s⟩
  by_cases h0 : n = 0
  · subst h0
    by_cases hL : 0 = L - 1
    · have hgt : ¬ (L > 1) := by omega
      simp [hL, hgt]
    · have hgt : L > 1 := by omega
      simp [hL, hgt]
  · by_cases h1 : n = L - 1
    · subst h1
      simp [h0]
    · simp [h0, h1]

/-- The implementation's candidate recovery coincides with the amended
claim's description of it. -/
theorem splitCandidates_eq_amended (content : String) :
    splitCandidates content = amendedCandidateRecovery content := by
  simp only [splitCandidates, amendedCandidateRecovery]
  congr 1
  exact List.map_congr_left (fun p _ => reattach_pointwise _ p)

/-- Blank input produces no candidates under the amended recovery. -/
theorem amendedCandidateRecovery_blank (content : String) (h : jsTrim content = "") :
    amendedCandidateRecovery content = [] := by
  unfold amendedCandidateRecovery
  rw [h]
  rfl

/-- C2 counterexample: two compact API-response records joined by a newline
contain the claimed three-character boundary but not the implementation's
four-character one, so `parseTelemetryContent` yields no event where the
claimed recovery yields both. -/
theorem claim2_counterexample :
    parseTelemetryContent (compactRecordA ++ "\n" ++ compactRecordB) = [] ∧
    (parseTelemetryContentClaimed (compactRecordA ++ "\n" ++ compactRecordB)).length = 2 := by
  constructor <;> decide

/-- C2 (amended): the candidate recovery splits the trimmed input on the
literal four-character sequence newline, closing brace, newline, opening
brace, re-attaching a trailing brace to every piece except the last and a
leading brace to every piece except the first; two pretty-printed
API-response records written consecutively (each closing brace on its own
line) yield exactly their two events. -/
theorem claim2_amended_boundary_recovery :
    (∀ content, parseTelemetryContent content =
      (amendedCandidateRecovery content).filterMap processCandidate) ∧
    parseTelemetryContent (record1 ++ "\n" ++ record2) = [event1, event2] := by
  refine ⟨?_, by decide⟩
  intro content
  unfold parseTelemetryContent
  by_cases h : jsTrim content = ""
  · rw [if_pos h, amendedCandidateRecovery_blank content h]
    rfl
  · rw [if_neg h, foldl_push_eq_filterMap, splitCandidates_eq_amended]
    rfl

/-- C6: `parseTelemetryContent` is total and degrades per candidate — it
equals the `filterMap` of per-candidate processing over the recovered
candidates, whitespace-only input yields no events, and three concatenated
records whose middle is invalid JSON yield exactly the two events of the
first and third. -/
theorem claim6_fault_isolation :
    (∀ content, parseTelemetryContent content =
      (splitCandidates content).filterMap processCandidate) ∧
    (∀ content, jsTrim content = "" → parseTelemetryContent content = []) ∧
    parseTelemetryContent (record1 ++ "\n" ++ recordInvalid ++ "\n" ++ record2)
      = [event1, event2] := by
  refine ⟨?_, ?_, by decide⟩
  · intro content
    unfold parseTelemetryContent
    by_cases h : jsTrim content = ""
    · rw [if_pos h, splitCandidates_eq_amended, amendedCandidateRecovery_blank content h]
      rfl
    · rw [if_neg h, foldl_push_eq_filterMap]
      rfl
  · intro content h
    unfold parseTelemetryContent
    rw [if_pos h]

/-- Witness for the whitespace clause of C6. -/
theorem claim6_witness : parseTelemetryContent "   \n\t " = [] :=
  claim6_fault_isolation.2.1 "   \n\t " (by decide)

/-- C7: a successfully parsed record contributes a usage event only when
its attributes carry `event.name` equal to `gemini_cli.api_response`; a
record with token-count-shaped attributes under any other event name
contributes nothing. -/
theorem claim7_event_name_filter :
    (∀ (s : String) (e : TelemetryEvent), processCandidate s = some e →
      eventNameOf s = some (Json.str "gemini_cli.api_response")) ∧
    parseTelemetryContent recordTokenUsage = [] := by
  refine ⟨?_, by decide⟩
  intro s e h
  unfold processCandidate at h
  unfold eventNameOf
  cases ha : recordAttributes s with
  | none => rw [ha] at h; exact absurd h (by simp)
  | some attrs =>
    rw [ha] at h
    simp only [Option.bind_some, Option.some_bind] at h ⊢
    unfold projectApiResponseEvent at h
    cases hn : jsGet attrs "event.name" with
    | none => rw [hn] at h; exact absurd h (by simp)
    | some v =>
      rw [hn] at h
      cases v with
      | str n =>
        by_cases hne : n = "gemini_cli.api_response"
        · rw [hne]
        · simp [hne] at h
      | null => exact absurd h (by simp)
      | bool b => exact absurd h (by simp)
      | num q => exact absurd h (by simp)
      | arr xs => exact absurd h (by simp)
      | obj kvs => exact absurd h (by simp)

/-- Witness for C7: the first pretty-printed record parses to an event, and
the theorem recovers its event name. -/
theorem claim7_witness :
    eventNameOf record1 = some (Json.str "gemini_cli.api_response") :=
  claim7_event_name_filter.1 record1 event1 (by decide)

/-- C1: `extractUsageFromTelemetry` emits one row per event having a
non-empty model and timestamp, in order, dated with the local-timezone
calendar date of the event's timestamp (`formatTimestampToLocalDate`);
events missing model or timestamp contribute nothing.  The bucket key is
the local calendar day, not the UTC day: at UTC+9 the concrete timestamp
below is dated `2024-01-16` while its UTC day is `2024-01-15`. -/
theorem claim1_local_date_extraction :
    (∀ (w : PricingWorld) (offline : Bool) (tz : Int) (cache : Option Catalog)
        (events : List TelemetryEvent),
      (extractUsageFromTelemetry w offline tz events cache).map
          (fun p => p.1.map (fun r => (r.model, r.date)))
        = (events.filter keepEvent).mapM
            (fun e => (formatTimestampToLocalDate tz e.timestamp).map
              (fun d => (e.model.getD "", d)))) ∧
    formatTimestampToLocalDate 540 "2024-01-15T23:30:00.000Z" = some "2024-01-16" ∧
    formatTimestampToLocalDate 0 "2024-01-15T23:30:00.000Z" = some "2024-01-15" := by
  refine ⟨?_, by decide, by decide⟩
  intro w offline tz cache events
  induction events generalizing cache with
  | nil => rfl
  | cons e rest ih =>
    by_cases hk : keepEvent e
    · have hfil : List.filter keepEvent (e :: rest) = e :: List.filter keepEvent rest := by
        simp [hk]
      rw [hfil, List.mapM_cons]
      simp only [extractUsageFromTelemetry, hk, if_true]
      cases hf : formatTimestampToLocalDate tz e.timestamp with
      | none => simp [hf]
      | some d =>
        have ih2 := ih ((calculateCost w offline cache (e.model.getD "")
          ((e.inputTokens.getD 0 : Nat) : ℚ) ((e.outputTokens.getD 0 : Nat) : ℚ)
          ((e.cachedTokens.getD 0 : Nat) : ℚ) ((e.thoughtsTokens.getD 0 : Nat) : ℚ)
          ((e.toolTokens.getD 0 : Nat) : ℚ)).2)
        cases hx : extractUsageFromTelemetry w offline tz rest
            ((calculateCost w offline cache (e.model.getD "")
              ((e.inputTokens.getD 0 : Nat) : ℚ) ((e.outputTokens.getD 0 : Nat) : ℚ)
              ((e.cachedTokens.getD 0 : Nat) : ℚ) ((e.thoughtsTokens.getD 0 : Nat) : ℚ)
              ((e.toolTokens.getD 0 : Nat) : ℚ)).2) with
        | none =>
          rw [hx] at ih2
          rw [← ih2]
          simp [hf, hx]
        | some pr =>
          rw [hx] at ih2
          rw [← ih2]
          simp [hf, hx]
    · have h1 : extractUsageFromTelemetry w offline tz (e :: rest) cache
          = extractUsageFromTelemetry w offline tz rest cache := by
        simp [extractUsageFromTelemetry, hk]
      have h2 : List.filter keepEvent (e :: rest) = List.filter keepEvent rest := by
        simp [hk]
      rw [h1, h2]
      exact ih cache

/-- Inserting according to a comparator permutes. -/
theorem orderedInsertBy_perm (le : A → A → Bool) (x : A) (l : List A) :
    (orderedInsertBy le x l).Perm (x :: l) := by
  induction l with
  | nil => exact List.Perm.refl _
  | cons y ys ih =>
    unfold orderedInsertBy
    by_cases h : le x y
    · rw [if_pos h]
    · rw [if_neg h]
      exact (ih.cons y).trans (List.Perm.swap x y ys)

/-- The comparison sort permutes its input. -/
theorem insertionSortBy_perm (le : A → A → Bool) (l : List A) :
    (insertionSortBy le l).Perm l := by
  induction l with
  | nil => exact List.Perm.refl _
  | cons x xs ih => exact (orderedInsertBy_perm le x (insertionSortBy le xs)).trans (ih.cons x)

/-- Adding a bucket to running totals adds its measure. -/
theorem totalsMeasure_add (t : Totals) (b : UsageBucket) :
    totalsMeasure (addBucketToTotals t b) = totalsMeasure t + bucketMeasure b := rfl

/-- The measure of the totals of a bucket list is the sum of the buckets'
measures. -/
theorem calculateTotals_measure (l : List UsageBucket) :
    totalsMeasure (calculateTotals l) = (l.map bucketMeasure).sum := by
  suffices h : ∀ (t : Totals), totalsMeasure (l.foldl addBucketToTotals t)
      = totalsMeasure t + (l.map bucketMeasure).sum by
    have h0 := h ⟨0, 0, 0, 0, 0⟩
    unfold calculateTotals
    rw [h0]
    show (0 : Nat × Nat × Nat × Nat × ℚ) + _ = _
    rw [zero_add]
  induction l with
  | nil => intro t; simp
  | cons b bs ih =>
    intro t
    rw [List.foldl_cons, ih, totalsMeasure_add, List.map_cons, List.sum_cons, add_assoc]

/-- Two totals with equal measures are equal. -/
theorem totalsMeasure_inj (a b : Totals) (h : totalsMeasure a = totalsMeasure b) : a = b := by
  cases a
  cases b
  simpa [totalsMeasure, Prod.ext_iff, Totals.mk.injEq] using h

/-- Folding one row into the grouping map adds its measure to the map's
total, whether the key is new or existing. -/
theorem updateGroups_measure_sum (gs : List (String × GroupAcc)) (k : String) (r : UsageRow) :
    ((updateGroups gs k r).map groupMeasure).sum
      = (gs.map groupMeasure).sum + rowMeasure r := by
  induction gs with
  | nil =>
    show groupMeasure (k, addRowToGroup emptyGroup r) + 0 = 0 + rowMeasure r
    rw [add_zero, zero_add]
    simp [groupMeasure, addRowToGroup, emptyGroup, rowMeasure, Prod.ext_iff]
  | cons p rest ih =>
    rcases p with ⟨k2, g⟩
    unfold updateGroups
    by_cases h : k2 = k
    · rw [if_pos h, List.map_cons, List.sum_cons, List.map_cons, List.sum_cons]
      have : groupMeasure (k2, addRowToGroup g r) = groupMeasure (k2, g) + rowMeasure r := rfl
      rw [this, add_right_comm]
    · rw [if_neg h, List.map_cons, List.sum_cons, List.map_cons, List.sum_cons, ih, add_assoc]

/-- The measure-sum of the grouping map over a row list is the sum of the
rows' measures. -/
theorem groupRowsBy_measure_sum (key : UsageRow → String) (rows : List UsageRow) :
    ((groupRowsBy key rows).map groupMeasure).sum = (rows.map rowMeasure).sum := by
  suffices h : ∀ (gs : List (String × GroupAcc)),
      ((rows.foldl (fun gs r => updateGroups gs (key r) r) gs).map groupMeasure).sum
        = (gs.map groupMeasure).sum + (rows.map rowMeasure).sum by
    have h0 := h []
    unfold groupRowsBy
    rw [h0]
    show (0 : Nat × Nat × Nat × Nat × ℚ) + _ = _
    rw [zero_add]
  induction rows with
  | nil => intro gs; simp
  | cons r rs ih =>
    intro gs
    rw [List.foldl_cons, ih, updateGroups_measure_sum, List.map_cons, List.sum_cons,
      add_assoc, add_comm (rowMeasure r)]

/-- A rolled-up report (group by any key, convert, sort by any comparator)
totals to the sum of the extracted rows, for either rollup. -/
theorem rollup_totals_measure (key : UsageRow → String)
    (le : UsageBucket → UsageBucket → Bool) (rows : List UsageRow) :
    totalsMeasure (calculateTotals (insertionSortBy le ((groupRowsBy key rows).map toBucket)))
      = (rows.map rowMeasure).sum := by
  rw [calculateTotals_measure,
    List.Perm.sum_eq ((insertionSortBy_perm le ((groupRowsBy key rows).map toBucket)).map
      bucketMeasure),
    List.map_map]
  have : bucketMeasure ∘ toBucket = groupMeasure := funext (fun p => rfl)
  rw [this, groupRowsBy_measure_sum]

/-- C9: the monthly rollup (keyed on the first seven characters of the
date) and the daily rollup are consistent: their grand totals agree
field-wise for every list of extracted usage rows. -/
theorem claim9_monthly_daily_consistency (rows : List UsageRow) :
    calculateTotals (loadMonthlyUsageData rows) = calculateTotals (loadDailyUsageData rows) := by
  apply totalsMeasure_inj
  unfold loadMonthlyUsageData loadDailyUsageData
  rw [rollup_totals_measure, rollup_totals_measure]

/-- The code-point `≤` on character lists is the negation of the swapped
`<` (the JavaScript comparisons form a total order). -/
theorem listLe_eq_not_listLt (a : List Char) : ∀ b, listLe a b = !listLt b a := by
  induction a with
  | nil => intro b; cases b <;> rfl
  | cons x xs ih =>
    intro b
    cases b with
    | nil => rfl
    | cons y ys =>
      by_cases h1 : x.toNat < y.toNat
      · have h2 : ¬ y.toNat < x.toNat := by omega
        simp [listLe, listLt, h1, h2]
      · by_cases h2 : y.toNat < x.toNat
        · simp [listLe, listLt, h1, h2]
        · simp [listLe, listLt, h1, h2, ih ys]

/-- Hyphen stripping is idempotent. -/
theorem stripHyphens_idem (s : String) : stripHyphens (stripHyphens s) = stripHyphens s := by
  simp [stripHyphens, List.filter_filter]

/-- C8: `filterByDateRange` keeps an item exactly when its normalised date
(first ten characters, hyphens stripped) is at least the hyphen-stripped
`since` (when given) and at most the hyphen-stripped `until` (when given);
bounds given with or without hyphens filter identically, and with no bounds
the list is returned unchanged. -/
theorem claim8_date_filter :
    (∀ (α : Type) (items : List α) (getDate : α → String) (since untl : Option String),
      filterByDateRange items getDate since untl = items.filter (fun it =>
        since.all (fun sv =>
          listLe (stripHyphens sv).data (stripHyphens (take10 (getDate it))).data) &&
        untl.all (fun uv =>
          listLe (stripHyphens (take10 (getDate it))).data (stripHyphens uv).data))) ∧
    (∀ (α : Type) (items : List α) (getDate : α → String) (since untl : Option String),
      filterByDateRange items getDate (since.map stripHyphens) (untl.map stripHyphens)
        = filterByDateRange items getDate since untl) ∧
    (∀ (α : Type) (items : List α) (getDate : α → String),
      filterByDateRange items getDate none none = items) := by
  refine ⟨?_, ?_, fun α items getDate => rfl⟩
  · intro α items getDate since untl
    unfold filterByDateRange
    rcases since with _ | sv <;> rcases untl with _ | uv <;> simp [listLe_eq_not_listLt]
  · intro α items getDate since untl
    unfold filterByDateRange
    rcases since with _ | sv <;> rcases untl with _ | uv <;> simp [stripHyphens_idem]

/-- C10: once the pricing cache is populated, `fetchPricingData` returns it
unchanged regardless of its `offline` argument and of the ambient world, so
`getModelPricing` and `calculateCost` are insensitive to the offline flag
after the first population; and every call leaves the cache populated with
exactly the catalog it returned, so the mode of the first call fixes the
catalog for the rest of the process. -/
theorem claim10_cache_write_once :
    (∀ (w : PricingWorld) (offline : Bool) (c : Catalog),
      fetchPricingData w offline (some c) = (c, some c)) ∧
    (∀ (w1 w2 : PricingWorld) (o1 o2 : Bool) (c : Catalog) (name : String),
      (getModelPricing w1 o1 (some c) name).1 = (getModelPricing w2 o2 (some c) name).1) ∧
    (∀ (w1 w2 : PricingWorld) (o1 o2 : Bool) (c : Catalog) (name : String)
        (i o cc t tl : ℚ),
      (calculateCost w1 o1 (some c) name i o cc t tl).1 =
        (calculateCost w2 o2 (some c) name i o cc t tl).1) ∧
    (∀ (w : PricingWorld) (offline : Bool) (cache : Option Catalog),
      (fetchPricingData w offline cache).2 = some (fetchPricingData w offline cache).1) := by
  refine ⟨fun w offline c => rfl, fun w1 w2 o1 o2 c name => rfl,
    fun w1 w2 o1 o2 c name i o cc t tl => rfl, fun w offline cache => ?_⟩
  cases cache <;> rfl

/-- C4: whenever the model resolves to a pricing record, `calculateCost`
returns the five per-kind costs (cached tokens priced at the record's
cached cost, or a quarter of the input cost when absent) and their sum. -/
theorem claim4_cost_formula (w : PricingWorld) (offline : Bool) (cache : Option Catalog)
    (name : String) (p : ModelPricing) (i o c t tl : ℚ)
    (h : (getModelPricing w offline cache name).1 = some p) :
    (calculateCost w offline cache name i o c t tl).1 =
      some { inputCost := i * p.inputCostPerToken,
             outputCost := o * p.outputCostPerToken,
             cachedCost := c * (p.cachedCostPerToken.getD (p.inputCostPerToken * (1/4 : ℚ))),
             thoughtsCost := t * p.outputCostPerToken,
             toolCost := tl * p.outputCostPerToken,
             totalCost := i * p.inputCostPerToken + o * p.outputCostPerToken +
               c * (p.cachedCostPerToken.getD (p.inputCostPerToken * (1/4 : ℚ))) +
               t * p.outputCostPerToken + tl * p.outputCostPerToken } := by
  simp only [calculateCost, CACHE_TOKEN_COST_MULTIPLIER, h]

/-- Witness for C4 at a concrete catalog and token counts. -/
theorem claim4_witness :
    (calculateCost pricingWorld0 false (some catalog1) "gemini-2.5-pro" 100 200 300 400 500).1 =
      some { inputCost := 200, outputCost := 600, cachedCost := 1500,
             thoughtsCost := 1200, toolCost := 1500, totalCost := 5000 } :=
  (claim4_cost_formula pricingWorld0 false (some catalog1) "gemini-2.5-pro" pricingRecord1
    100 200 300 400 500 (by decide)).trans (by decide)

/-- C5: when the model resolves to no pricing record, `calculateCost`
returns `null` rather than raising, and `extractUsageFromTelemetry` still
emits the event's row with cost 0 and its token counts preserved. -/
theorem claim5_unknown_model_zero_cost :
    (∀ (w : PricingWorld) (offline : Bool) (cache : Option Catalog) (name : String)
        (i o c t tl : ℚ),
      (getModelPricing w offline cache name).1 = none →
      (calculateCost w offline cache name i o c t tl).1 = none) ∧
    (∀ (w : PricingWorld) (offline : Bool) (tz : Int) (cache : Option Catalog)
        (e : TelemetryEvent) (mn d : String),
      e.model = some mn → mn ≠ "" → e.timestamp ≠ "" →
      formatTimestampToLocalDate tz e.timestamp = some d →
      (getModelPricing w offline cache mn).1 = none →
      extractUsageFromTelemetry w offline tz [e] cache =
        some ([{ model := mn, date := d,
                 inputTokens := e.inputTokens.getD 0,
                 outputTokens := e.outputTokens.getD 0,
                 cacheCreationTokens := 0,
                 cacheReadTokens := e.cachedTokens.getD 0,
                 cost := 0 }],
              (getModelPricing w offline cache mn).2)) := by
  constructor
  · intro w offline cache name i o c t tl h
    simp only [calculateCost, h]
  · intro w offline tz cache e mn d hm hmne hts hfmt hres
    have hkeep : keepEvent e = true := by
      unfold keepEvent
      rw [hm]
      simp [hmne, hts]
    have hres2 : resolveModelPricing (fetchPricingData w offline cache).1 mn = none := by
      simpa [getModelPricing] using hres
    simp [extractUsageFromTelemetry, hkeep, hfmt, hm, calculateCost, getModelPricing, hres2]

/-- Unfolding helper: an option match that short-circuits on `some` is the
`orElse` of its scrutinee and its `none` branch. -/
theorem option_match_eq_orElse (x y : Option A) :
    (match x with | some b => some b | none => y) = (x <|> y) := by
  cases x <;> rfl

/-- C3: `getModelPricing` resolves through the fixed short-circuit chain —
exact catalog key, the three provider-prefixed variants in order, exact
experimental key, first gemini-containing catalog key matching by substring
either way, first experimental key matching by substring either way — and
in particular `my-gemini-model-custom` resolves to the record of the bare
catalog key `gemini` via the substring step. -/
theorem claim3_pricing_fallback_chain :
    (∀ (w : PricingWorld) (offline : Bool) (pricing : Catalog) (name : String),
      (getModelPricing w offline (some pricing) name).1 = getModelPricingSpec pricing name) ∧
    (getModelPricing pricingWorld0 false (some [("gemini", geminiRecord)])
      "my-gemini-model-custom").1 = some geminiRecord := by
  refine ⟨?_, by decide⟩
  intro w offline pricing name
  show resolveModelPricing pricing name = getModelPricingSpec pricing name
  unfold resolveModelPricing getModelPricingSpec
  cases h1 : mapGet pricing name with
  | some p => rfl
  | none =>
    simp only [List.findSome?_cons, h1, List.findSome?_nil]
    generalize mapGet pricing ("google/" ++ name) = x1
    generalize mapGet pricing ("vertex_ai/" ++ name) = x2
    generalize mapGet pricing ("gemini/" ++ name) = x3
    generalize recGet EXPERIMENTAL_MODELS name = x4
    generalize geminiSubstringScan pricing name = x5
    cases x1 <;> cases x2 <;> cases x3 <;> cases x4 <;> cases x5 <;> rfl

/-- Witness for C5 at the unresolvable model name of the spec's test. -/
theorem claim5_witness :
    extractUsageFromTelemetry pricingWorld0 false 0 [eventUnknownModel] (some []) =
      some ([{ model := "totally-unknown-model", date := "2025-08-24",
               inputTokens := 100, outputTokens := 100, cacheCreationTokens := 0,
               cacheReadTokens := 0, cost := 0 }], some []) :=
  (claim5_unknown_model_zero_cost.2 pricingWorld0 false 0 (some []) eventUnknownModel
    "totally-unknown-model" "2025-08-24" (by decide) (by decide) (by decide)
    (by decide) (by decide)).trans (by decide)

end Gemistat
